import Mathlib

/-!
Shallow embedding of the IM_quizer Streamlit application (`st_quiz.py`).

Pure string manipulation (strip, split, splitlines, join) is modelled over
`List Char`, mirroring the corresponding Python `str` methods on the ASCII
whitespace set the program actually meets.  External capabilities (HTTP GET,
the HTML parser, the Azure OpenAI completion endpoint, the filesystem and the
user's widget selections) are modelled as oracle parameters; everything the
repository's own code does with their results is translated from the source.
-/

namespace StQuiz

/-- Whitespace characters recognised by Python's `str.strip` / `str.split`
(the ASCII subset). -/
def isWs (c : Char) : Bool :=
  c = ' ' || c = '\t' || c = '\n' || c = '\r' || c = '\x0b' || c = '\x0c'

/-- Line-boundary characters recognised by Python's `str.splitlines`
(the ASCII subset; `\r\n` is treated as a single boundary separately). -/
def isLineBrk (c : Char) : Bool :=
  c = '\n' || c = '\r' || c = '\x0b' || c = '\x0c'

/-- Python `str.strip()` on a character list. -/
def pyStrip (s : List Char) : List Char :=
  (s.dropWhile isWs).rdropWhile isWs

/-- Python `str.strip()` on a `String`. -/
def pyStripS (s : String) : String :=
  String.mk (pyStrip s.data)

/-- Python `sep.join(parts)` on character lists. -/
def joinSep (sep : List Char) : List (List Char) → List Char
  | [] => []
  | [x] => x
  | x :: y :: xs => x ++ sep ++ joinSep sep (y :: xs)

/-- Python `sep.join(parts)` on `String`s. -/
def joinSepS (sep : String) (parts : List String) : String :=
  String.mk (joinSep sep.data (parts.map String.data))

/-- Helper for Python `str.split()` (no separator argument): accumulates the
current word (reversed) and emits maximal runs of non-whitespace characters. -/
def wordsAux (cur : List Char) : List Char → List (List Char)
  | [] => if cur.isEmpty then [] else [cur.reverse]
  | c :: cs =>
    if isWs c then
      if cur.isEmpty then wordsAux [] cs else cur.reverse :: wordsAux [] cs
    else
      wordsAux (c :: cur) cs

/-- Python `s.split()`: the whitespace-separated words of `s`. -/
def pySplit (s : List Char) : List (List Char) :=
  wordsAux [] s

/-- Python `" ".join(s.split())`, as the scraper applies it. -/
def pyCollapse (s : List Char) : List Char :=
  joinSep [' '] (pySplit s)

/-- String version of `pyCollapse`. -/
def pyCollapseS (s : String) : String :=
  String.mk (pyCollapse s.data)

/-- Replacement of every maximal whitespace run by one space, written as the
specification describes it (state records whether the previous character was
whitespace). -/
def collapseRun (prevWs : Bool) : List Char → List Char
  | [] => []
  | c :: cs =>
    if isWs c then
      if prevWs then collapseRun true cs else ' ' :: collapseRun true cs
    else
      c :: collapseRun false cs

/-- Collapse all whitespace runs of `s` to single spaces. -/
def collapseWs (s : List Char) : List Char :=
  collapseRun false s

/-- Helper for Python `str.splitlines()`. -/
def splitlinesAux (cur : List Char) : List Char → List (List Char)
  | [] => if cur.isEmpty then [] else [cur.reverse]
  | '\r' :: '\n' :: cs => cur.reverse :: splitlinesAux [] cs
  | c :: cs =>
    if isLineBrk c then cur.reverse :: splitlinesAux [] cs
    else splitlinesAux (c :: cur) cs

/-- Python `s.splitlines()` on `String`s. -/
def pySplitlinesS (s : String) : List String :=
  (splitlinesAux [] s.data).map String.mk

/-- Lexicographic (code-point) order on character lists, as Python compares
strings. -/
def lexLe : List Char → List Char → Bool
  | [], _ => true
  | _ :: _, [] => false
  | a :: as, b :: bs =>
    decide (a.toNat < b.toNat) || (decide (a.toNat = b.toNat) && lexLe as bs)

/-- Lexicographic order on `String`s. -/
def strLeB (a b : String) : Bool :=
  lexLe a.data b.data

/-- Python `sorted(set(xs))` for strings: distinct values in increasing
lexicographic order. -/
def sortedDedup (l : List String) : List String :=
  List.insertionSort (fun a b => strLeB a b = true) l.dedup

/-- Python truthiness of an optional string (`None` and `""` are falsy). -/
def truthy : Option String → Bool
  | none => false
  | some s => !(s == "")

/-! ### Web fetching (`scrape_links`, lines 127-147) -/

/-- Parsed HTML, the output of the external parsing capability
(`BeautifulSoup(response.text, "html.parser")`). -/
inductive Html where
  | text (s : String)
  | elem (tag : String) (children : List Html)

/-- Tags whose whole subtree `scrape_links` decomposes before extracting
text: `soup(["script", "style", "noscript"])`. -/
def removedTags : List String :=
  ["script", "style", "noscript"]

mutual

/-- Text pieces of an HTML tree after decomposing script/style/noscript
subtrees, in document order (`soup.get_text` collects exactly these). -/
def textPieces : Html → List String
  | Html.text s => [s]
  | Html.elem tag children =>
    if tag ∈ removedTags then [] else textPiecesList children

/-- Text pieces of a list of sibling HTML nodes. -/
def textPiecesList : List Html → List String
  | [] => []
  | h :: hs => textPieces h ++ textPiecesList hs

end

/-- The program's `soup.get_text(separator=" ")` after decomposition. -/
def get_text (h : Html) : String :=
  joinSepS " " (textPieces h)

/-- The scraper's per-page text: `" ".join(soup.get_text(separator=" ").split())`. -/
def cleanPageText (h : Html) : String :=
  pyCollapseS (get_text h)

/-- Outcome of the external HTTP GET (`requests.get` + `raise_for_status`):
either a parsed HTML body or an exception message. -/
inductive FetchOutcome where
  | success (body : Html)
  | failure (error : String)

/-- One element of the list `scrape_links` returns: the dict
`{"url": link, "text": text}` or `{"url": link, "error": str(exc)}`. -/
inductive ScrapeResult where
  | ok (url : String) (text : String)
  | err (url : String) (error : String)
deriving DecidableEq

/-- The `url` field every scrape result carries. -/
def ScrapeResult.url : ScrapeResult → String
  | ScrapeResult.ok u _ => u
  | ScrapeResult.err u _ => u

/-- Embedding of `scrape_links` (lines 127-147): one result is appended per
link; any exception for one link is caught and recorded without affecting the
other links. -/
def scrape_links (fetch : String → FetchOutcome) (links : List String) :
    List ScrapeResult :=
  links.map (fun link =>
    match fetch link with
    | FetchOutcome.success body => ScrapeResult.ok link (cleanPageText body)
    | FetchOutcome.failure e => ScrapeResult.err link e)

/-- The handler's `[item["text"] for item in scraped if "text" in item]`. -/
def successTexts (rs : List ScrapeResult) : List String :=
  rs.filterMap (fun r =>
    match r with
    | ScrapeResult.ok _ t => some t
    | ScrapeResult.err _ _ => none)

/-- The handler's `[item for item in scraped if "error" in item]`. -/
def scrapeErrors (rs : List ScrapeResult) : List ScrapeResult :=
  rs.filter (fun r =>
    match r with
    | ScrapeResult.ok _ _ => false
    | ScrapeResult.err _ _ => true)

/-! ### Quiz generation (`create_quiz`, lines 48-124) -/

/-- The values `st.secrets.get` may return for the four configuration keys
(`none` models an absent secret). -/
structure Secrets where
  key : Option String
  api_version : Option String
  endpoint : Option String
  deployment : Option String

/-- The `link_text` argument of `create_quiz` is either the list
`scraped_texts` or the plain string `""`. -/
inductive LinkText where
  | ofString (s : String)
  | ofList (l : List String)
deriving DecidableEq

/-- The texts carried by a `link_text` value. -/
def LinkText.texts : LinkText → List String
  | LinkText.ofString _ => []
  | LinkText.ofList l => l

/-- The `inputs` dictionary substituted into the prompt template. -/
structure PromptInputs where
  article : String
  questions : Nat
  focus : String
  lakemedel : String
  link_text : LinkText
deriving DecidableEq

/-- The configuration of the `AzureChatOpenAI` client constructed by
`create_quiz` (temperature is the constant 0.0). -/
structure ClientConfig where
  azure_deployment : String
  api_version : String
  azure_endpoint : String
  api_key : String
deriving DecidableEq

/-- Externally visible steps `create_quiz` performs after validating the
secrets: constructing the completion client and invoking the chain. -/
inductive GenStep where
  | constructClient (cfg : ClientConfig)
  | invokeChain (inputs : PromptInputs)
deriving DecidableEq

/-- Embedding of `create_quiz` (lines 48-124).  The external completion
capability is the oracle `llm`; the function returns the performed steps
together with either the quiz text or the raised exception's message. -/
def create_quiz (secrets : Secrets)
    (llm : ClientConfig → PromptInputs → Except String String)
    (article : String) (focus : String) (questions : Nat) (lakemedel : String)
    (link_text : LinkText) : List GenStep × Except String String :=
  let inputs : PromptInputs :=
    ⟨article, questions, focus, lakemedel, link_text⟩
  let api_key := secrets.key
  let api_version := secrets.api_version.getD "2024-12-01-preview"
  let api_endpoint := secrets.endpoint
  let deployment := secrets.deployment.getD "gpt-5-chat"
  if !truthy api_key || !truthy api_endpoint then
    ([], Except.error "Azure OpenAI secrets are missing.")
  else
    let llmClient : ClientConfig :=
      ⟨deployment, api_version, api_endpoint.getD "", api_key.getD ""⟩
    ([GenStep.constructClient llmClient, GenStep.invokeChain inputs],
      llm llmClient inputs)

/-! ### Reference data and selection (lines 22-45 and 167-234) -/

/-- One record of `treatments.csv` restricted to the three used columns.
`none` models a missing value (pandas `NaN`, or `csv.DictReader`'s `None`). -/
structure Row where
  title : Option String
  section_title : Option String
  section_text : Option String
deriving DecidableEq

/-- Python f-string rendering of an optional value (`None` prints as
`"None"`), used by the csv fallback path's label construction. -/
def fRepr : Option String → String
  | none => "None"
  | some s => s

/-- The csv fallback path's `f"{row.get('title')} - {row.get('section_title')}"`. -/
def fLabel (r : Row) : String :=
  fRepr r.title ++ " - " ++ fRepr r.section_title

/-- Pandas `astype(str)` of a cell (`NaN` prints as `"nan"`). -/
def pdStr : Option String → String
  | none => "nan"
  | some s => s

/-- The pandas path's `section_label` column:
`title.astype(str).str.cat(section_title.astype(str), sep=" - ")`. -/
def pdLabel (r : Row) : String :=
  pdStr r.title ++ " - " ++ pdStr r.section_title

/-- Python `value in selected` for an optional cell value (`None` is never a
member of a list of strings). -/
def optMem (o : Option String) (l : List String) : Bool :=
  match o with
  | none => false
  | some s => s ∈ l

/-- The pandas path's `filtered` frame (lines 179-180):
`data[data["title"].isin(selected_titles)].dropna(subset=["title", "section_title"])`. -/
def filtered_pd (data : List Row) (selected_titles : List String) : List Row :=
  (data.filter (fun r => optMem r.title selected_titles)).filter
    (fun r => r.title.isSome && r.section_title.isSome)

/-- The pandas path's section labels (line 186):
`sorted(filtered["section_label"].unique())`. -/
def section_labels_pd (data : List Row) (selected_titles : List String) :
    List String :=
  sortedDedup ((filtered_pd data selected_titles).map pdLabel)

/-- The pandas path's `section_text_output` (lines 192-202): for each selected
label in selection order, the non-null `section_text` values of the matching
rows of `selected_rows`, in dataset order. -/
def section_text_output_pd (data : List Row)
    (selected_titles selected_sections : List String) : List String :=
  let filtered := filtered_pd data selected_titles
  let selected_rows :=
    filtered.filter (fun r => pdLabel r ∈ selected_sections)
  selected_sections.flatMap (fun label =>
    (selected_rows.filter (fun r => pdLabel r == label)).filterMap
      (fun r => r.section_text))

/-- The csv fallback path's `filtered` list (line 208):
`[row for row in data if row.get("title") in selected_titles]`. -/
def filtered_csv (data : List Row) (selected_titles : List String) : List Row :=
  data.filter (fun r => optMem r.title selected_titles)

/-- The csv fallback path's section labels (lines 209-215):
`sorted({f"{title} - {section_title}" for row in filtered if title and section_title})`. -/
def section_labels_csv (data : List Row) (selected_titles : List String) :
    List String :=
  sortedDedup
    (((filtered_csv data selected_titles).filter
      (fun r => truthy r.title && truthy r.section_title)).map fLabel)

/-- The csv fallback path's `section_text_output` (lines 221-232): for each
selected label in selection order, the truthy `section_text` values of the
rows of `filtered` whose f-string label equals the selected label. -/
def section_text_output_csv (data : List Row)
    (selected_titles selected_sections : List String) : List String :=
  let filtered := filtered_csv data selected_titles
  selected_sections.flatMap (fun label =>
    ((filtered.filter
      (fun r => truthy r.section_text && (fLabel r == label))).map
      (fun r => fRepr r.section_text)))

/-- Line 245: `article_text = "\n\n".join(section_text_output).strip()`. -/
def article_text_selection (section_text_output : List String) : String :=
  pyStripS (joinSepS "\n\n" section_text_output)

/-- The filesystem oracle: whether `treatments.csv` exists and, when it does,
the records the external csv reader parses from it. -/
structure FileSystem where
  treatments_exists : Bool
  rows : List Row

/-- Embedding of `load_treatments_data` (lines 22-45): `None` when the file
is absent, otherwise the parsed records. -/
def load_treatments_data (fs : FileSystem) : Option (List Row) :=
  if fs.treatments_exists then some fs.rows else none

/-- Outcome of the data-selection part of the page (lines 167-234): the
inline error when the dataset is missing, and otherwise the selections and
the accumulated `section_text_output`. -/
structure SelectionState where
  dataError : Option String
  selected_titles : List String
  selected_sections : List String
  section_text_output : List String
deriving DecidableEq

/-- The data-selection part of the page.  `pdAvailable` selects between the
pandas path and the csv fallback path; the user's multiselect choices are the
oracle inputs `selT` and `selS`. -/
def page_selection (pdAvailable : Bool) (fs : FileSystem)
    (selT selS : List String) : SelectionState :=
  match load_treatments_data fs with
  | none =>
    ⟨some "internetmedicin data kunde inte hittas i projektmappen.", [], [], []⟩
  | some data =>
    ⟨none, selT, selS,
      if pdAvailable then section_text_output_pd data selT selS
      else section_text_output_csv data selT selS⟩

/-! ### The generate-quiz handler (lines 244-272) -/

/-- Line 246: `[link.strip() for link in links_text.splitlines() if link.strip()]`. -/
def pyLinksOf (links_text : String) : List String :=
  ((pySplitlinesS links_text).map pyStripS).filter (fun l => !(l == ""))

/-- What the handler finally displays: `st.error(...)` with a message, or
`st.markdown(quiz_json)` with the returned quiz text. -/
inductive DisplayMsg where
  | errorMsg (msg : String)
  | quiz (text : String)
deriving DecidableEq

/-- Observable trace of one run of the `if generate_quiz:` block. -/
structure RunResult where
  articleText : String
  links : List String
  scrapeCall : Option (List String × List ScrapeResult)
  scrapeWarning : Bool
  createCall : Option PromptInputs
  genSteps : List GenStep
  display : DisplayMsg
deriving DecidableEq

/-- Lines 245-252: the handler's `article_text` after the optional scraping
step, i.e. the trimmed blank-line join of the selected section texts,
extended with the successfully scraped texts when there are links. -/
def combinedArticleText (fetch : String → FetchOutcome)
    (section_text_output : List String) (links : List String) : String :=
  if links.isEmpty then article_text_selection section_text_output
  else
    pyStripS (joinSepS "\n\n" (article_text_selection section_text_output ::
      successTexts (scrape_links fetch links)))

/-- Embedding of the `if generate_quiz:` handler (lines 244-272).
`scrapeCall` records the argument and result of the `scrape_links` call when
it happens, `createCall` the inputs assembled for `create_quiz` when it is
invoked, and `display` the user-facing outcome. -/
def generate_quiz_run (fetch : String → FetchOutcome)
    (llm : ClientConfig → PromptInputs → Except String String)
    (secrets : Secrets) (section_text_output : List String)
    (links_text prompt_text : String) (questions : Nat)
    (lakemedel_text : String) : RunResult :=
  let links := pyLinksOf links_text
  let scrapeCall : Option (List String × List ScrapeResult) :=
    if links.isEmpty then none else some (links, scrape_links fetch links)
  let scraped_texts : List String :=
    if links.isEmpty then [] else successTexts (scrape_links fetch links)
  let articleText := combinedArticleText fetch section_text_output links
  let warning :=
    if links.isEmpty then false
    else !(scrapeErrors (scrape_links fetch links)).isEmpty
  if articleText = "" then
    ⟨articleText, links, scrapeCall, warning, none, [],
      DisplayMsg.errorMsg "Välj minst ett avsnitt för att skapa quiz."⟩
  else
    let link_text :=
      if links.isEmpty then LinkText.ofString "" else LinkText.ofList scraped_texts
    let focus := if prompt_text = "" then "allmän förståelse" else prompt_text
    let callResult :=
      create_quiz secrets llm articleText focus questions lakemedel_text link_text
    ⟨articleText, links, scrapeCall, warning,
      some ⟨articleText, questions, focus, lakemedel_text, link_text⟩,
      callResult.1,
      match callResult.2 with
      | Except.ok q => DisplayMsg.quiz q
      | Except.error e => DisplayMsg.errorMsg e⟩

end StQuiz
namespace StQuiz

/-- A string is blank when it is empty or consists of whitespace only. -/
def isBlankS (s : String) : Bool :=
  s.data.all isWs

theorem pyStrip_eq_nil_iff (s : List Char) :
    pyStrip s = [] ↔ ∀ c ∈ s, isWs c = true := by
  unfold pyStrip
  rw [List.rdropWhile_eq_nil_iff]
  constructor
  · intro h c hc
    have hs : s.takeWhile isWs ++ s.dropWhile isWs = s :=
      List.takeWhile_append_dropWhile isWs s
    rw [← hs] at hc
    rcases List.mem_append.mp hc with h1 | h2
    · exact List.mem_takeWhile_imp h1
    · exact h c h2
  · intro h c hc
    exact h c ((List.dropWhile_sublist isWs).mem hc)

theorem joinSep_all_iff {sep : List Char} (hsep : ∀ c ∈ sep, isWs c = true) :
    ∀ parts : List (List Char),
      (∀ c ∈ joinSep sep parts, isWs c = true) ↔
        ∀ p ∈ parts, ∀ c ∈ p, isWs c = true
  | [] => by simp [joinSep]
  | [x] => by simp [joinSep]
  | x :: y :: xs => by
    have ih := joinSep_all_iff hsep (y :: xs)
    constructor
    · intro h p hp c hc
      rcases List.mem_cons.mp hp with rfl | hp2
      · exact h c (by
          simp only [joinSep, List.mem_append]
          exact Or.inl (Or.inl hc))
      · exact ih.mp (fun d hd => h d (by
          simp only [joinSep, List.mem_append]
          exact Or.inr hd)) p hp2 c hc
    · intro h c hc
      simp only [joinSep, List.mem_append] at hc
      rcases hc with (hc | hc) | hc
      · exact h x (List.mem_cons_self x _) c hc
      · exact hsep c hc
      · exact ih.mpr (fun p hp => h p (List.mem_cons_of_mem x hp)) c hc

theorem pyStripS_blank {s : String} (h : s.data.all isWs = true) :
    pyStripS s = "" := by
  have : pyStrip s.data = [] :=
    (pyStrip_eq_nil_iff s.data).mpr (fun c hc => List.all_eq_true.mp h c hc)
  unfold pyStripS
  rw [this]

theorem isBlankS_joinSepS_iff (parts : List String) :
    isBlankS (joinSepS "\n\n" parts) = true ↔
      ∀ p ∈ parts, p.data.all isWs = true := by
  unfold isBlankS joinSepS
  rw [List.all_eq_true]
  have hsep : ∀ c ∈ ("\n\n" : String).data, isWs c = true := by decide
  rw [show (String.mk (joinSep "\n\n".data (parts.map String.data))).data =
      joinSep "\n\n".data (parts.map String.data) from rfl]
  rw [joinSep_all_iff hsep (parts.map String.data)]
  constructor
  · intro h p hp
    exact List.all_eq_true.mpr (h p.data (List.mem_map_of_mem String.data hp))
  · intro h q hq
    rcases List.mem_map.mp hq with ⟨p, hp, rfl⟩
    exact List.all_eq_true.mp (h p hp)

theorem article_text_selection_blank {sto : List String}
    (h : ∀ p ∈ sto, p.data.all isWs = true) :
    article_text_selection sto = "" := by
  unfold article_text_selection
  apply pyStripS_blank
  rw [show (joinSepS "\n\n" sto).data.all isWs = isBlankS (joinSepS "\n\n" sto) from rfl]
  exact (isBlankS_joinSepS_iff sto).mpr h

end StQuiz
namespace StQuiz

/-- C1: for every combination of selected section texts and URL list, if the
combined article text (selected section texts joined with the fetched page
texts) is empty or whitespace-only after trimming, the handler never invokes
`create_quiz` (so no completion step is performed) and surfaces the
Selection-Empty error message instead. -/
theorem c1_selection_empty_guard (fetch : String → FetchOutcome)
    (llm : ClientConfig → PromptInputs → Except String String)
    (secrets : Secrets) (section_text_output : List String)
    (links_text prompt_text : String) (questions : Nat) (lakemedel_text : String)
    (h : isBlankS (joinSepS "\n\n" (section_text_output ++
      successTexts (scrape_links fetch (pyLinksOf links_text)))) = true) :
    (generate_quiz_run fetch llm secrets section_text_output links_text
      prompt_text questions lakemedel_text).createCall = none ∧
    (generate_quiz_run fetch llm secrets section_text_output links_text
      prompt_text questions lakemedel_text).genSteps = [] ∧
    (generate_quiz_run fetch llm secrets section_text_output links_text
      prompt_text questions lakemedel_text).display =
      DisplayMsg.errorMsg "Välj minst ett avsnitt för att skapa quiz." := by
  have hparts := (isBlankS_joinSepS_iff _).mp h
  have hsto : ∀ p ∈ section_text_output, p.data.all isWs = true :=
    fun p hp => hparts p (List.mem_append_left _ hp)
  have hsc : ∀ p ∈ successTexts (scrape_links fetch (pyLinksOf links_text)),
      p.data.all isWs = true :=
    fun p hp => hparts p (List.mem_append_right _ hp)
  have h0 : article_text_selection section_text_output = "" :=
    article_text_selection_blank hsto
  have hart : combinedArticleText fetch section_text_output
      (pyLinksOf links_text) = "" := by
    unfold combinedArticleText
    by_cases hl : (pyLinksOf links_text).isEmpty
    · simp only [hl, if_true]
      exact h0
    · simp only [hl, Bool.false_eq_true, if_false]
      apply pyStripS_blank
      have : ∀ p ∈ (article_text_selection section_text_output ::
          successTexts (scrape_links fetch (pyLinksOf links_text))),
          p.data.all isWs = true := by
        intro p hp
        rcases List.mem_cons.mp hp with rfl | hp2
        · rw [h0]; decide
        · exact hsc p hp2
      exact (isBlankS_joinSepS_iff _).mpr this
  unfold generate_quiz_run
  simp only [hart, if_pos]
  exact ⟨trivial, trivial, trivial⟩

end StQuiz
namespace StQuiz

/-- Witness for C1 at a concrete input: one whitespace-only selected section,
no URLs, so the run refuses generation with the Selection-Empty error. -/
theorem c1_selection_empty_guard_witness :
    isBlankS (joinSepS "\n\n" ([" ", ""] ++
      successTexts (scrape_links (fun _ => FetchOutcome.failure "no network")
        (pyLinksOf "")))) = true ∧
    ((generate_quiz_run (fun _ => FetchOutcome.failure "no network")
        (fun _ _ => Except.ok "quiz") ⟨some "k", none, some "e", none⟩
        [" ", ""] "" "" 5 "").createCall = none ∧
      (generate_quiz_run (fun _ => FetchOutcome.failure "no network")
        (fun _ _ => Except.ok "quiz") ⟨some "k", none, some "e", none⟩
        [" ", ""] "" "" 5 "").genSteps = [] ∧
      (generate_quiz_run (fun _ => FetchOutcome.failure "no network")
        (fun _ _ => Except.ok "quiz") ⟨some "k", none, some "e", none⟩
        [" ", ""] "" "" 5 "").display =
        DisplayMsg.errorMsg "Välj minst ett avsnitt för att skapa quiz.") :=
  ⟨by decide,
    c1_selection_empty_guard (fun _ => FetchOutcome.failure "no network")
      (fun _ _ => Except.ok "quiz") ⟨some "k", none, some "e", none⟩
      [" ", ""] "" "" 5 "" (by decide)⟩

end StQuiz
namespace StQuiz

/-- C2: scraping N links yields exactly N results in input order; the i-th
result carries the i-th input url, is tagged success-with-text or
failure-with-error, and is determined by that url's fetch outcome alone, so
one url's failure cannot affect the others. -/
theorem c2_scrape_shape (fetch : String → FetchOutcome) (links : List String) :
    (scrape_links fetch links).length = links.length ∧
    (∀ (i : Nat) (l : String), links[i]? = some l →
      (scrape_links fetch links)[i]? = some
        (match fetch l with
         | FetchOutcome.success body => ScrapeResult.ok l (cleanPageText body)
         | FetchOutcome.failure e => ScrapeResult.err l e)) ∧
    (∀ (i : Nat) (l : String), links[i]? = some l → ∃ r, (scrape_links fetch links)[i]? = some r ∧
      r.url = l ∧ ((∃ t, r = ScrapeResult.ok l t) ∨
        (∃ e, r = ScrapeResult.err l e))) := by
  refine ⟨List.length_map _ _, ?_, ?_⟩
  · intro i l hl
    simp [scrape_links, List.getElem?_map, hl]
  · intro i l hl
    refine ⟨match fetch l with
      | FetchOutcome.success body => ScrapeResult.ok l (cleanPageText body)
      | FetchOutcome.failure e => ScrapeResult.err l e, ?_, ?_, ?_⟩
    · simp [scrape_links, List.getElem?_map, hl]
    · cases fetch l <;> rfl
    · cases fetch l with
      | success body => exact Or.inl ⟨cleanPageText body, rfl⟩
      | failure e => exact Or.inr ⟨e, rfl⟩

/-- The HTML body of the specification's example page for `http://b.test`. -/
def helloBody : Html :=
  Html.elem "html" [Html.elem "body"
    [Html.text "Hello", Html.elem "script" [Html.text "bad()"]]]

/-- The fetch oracle of the specification's example batch: `http://a.test`
times out, `http://b.test` serves the Hello page. -/
def exampleBatchFetch : String → FetchOutcome :=
  fun u => if u = "http://b.test" then FetchOutcome.success helloBody
    else FetchOutcome.failure "timed out"

/-- Witness for C2 on the specification's example batch: two links, the first
failing and the second succeeding, give exactly two results in order. -/
theorem c2_scrape_shape_witness :
    (scrape_links exampleBatchFetch ["http://a.test", "http://b.test"]).length = 2 ∧
    (scrape_links exampleBatchFetch ["http://a.test", "http://b.test"])[0]? =
      some (ScrapeResult.err "http://a.test" "timed out") ∧
    (scrape_links exampleBatchFetch ["http://a.test", "http://b.test"])[1]? =
      some (ScrapeResult.ok "http://b.test" "Hello") := by
  have h := c2_scrape_shape exampleBatchFetch ["http://a.test", "http://b.test"]
  refine ⟨h.1, ?_, ?_⟩
  · rw [h.2.1 0 "http://a.test" (by decide)]; decide
  · rw [h.2.1 1 "http://b.test" (by decide)]; decide

end StQuiz
namespace StQuiz

/-- C3: when the API key or the endpoint secret is absent, `create_quiz`
raises the configuration error before constructing the completion client or
invoking it (its step trace is empty), and the handler shows that message
verbatim whenever it reaches `create_quiz`. -/
theorem c3_config_guard (secrets : Secrets)
    (h : secrets.key = none ∨ secrets.endpoint = none) :
    (∀ llm article focus questions lakemedel link_text,
      create_quiz secrets llm article focus questions lakemedel link_text =
        ([], Except.error "Azure OpenAI secrets are missing.")) ∧
    (∀ fetch llm section_text_output links_text prompt_text questions
        lakemedel_text,
      (generate_quiz_run fetch llm secrets section_text_output links_text
        prompt_text questions lakemedel_text).createCall.isSome = true →
      (generate_quiz_run fetch llm secrets section_text_output links_text
        prompt_text questions lakemedel_text).display =
          DisplayMsg.errorMsg "Azure OpenAI secrets are missing." ∧
      (generate_quiz_run fetch llm secrets section_text_output links_text
        prompt_text questions lakemedel_text).genSteps = []) := by
  have hcq : ∀ llm article focus questions lakemedel link_text,
      create_quiz secrets llm article focus questions lakemedel link_text =
        ([], Except.error "Azure OpenAI secrets are missing.") := by
    intro llm article focus questions lakemedel link_text
    unfold create_quiz
    rcases h with h | h <;> simp [h, truthy]
  refine ⟨hcq, ?_⟩
  intro fetch llm sto lt pt q lak
  intro hsome
  by_cases ha : combinedArticleText fetch sto (pyLinksOf lt) = ""
  · unfold generate_quiz_run at hsome
    simp only [ha, if_pos] at hsome
    simp at hsome
  · unfold generate_quiz_run
    simp only [if_neg ha]
    rw [hcq]
    exact ⟨rfl, rfl⟩

/-- Secrets with the key absent but the endpoint present. -/
def keylessSecrets : Secrets :=
  ⟨none, none, some "https://example.invalid", none⟩

/-- Witness for C3: with the key secret absent, a concrete `create_quiz`
call errors without any step, and a concrete run that reaches it displays
the message verbatim. -/
theorem c3_config_guard_witness :
    (keylessSecrets.key = none ∨ keylessSecrets.endpoint = none) ∧
    create_quiz keylessSecrets (fun _ _ => Except.ok "quiz") "article" "fokus"
      5 "" (LinkText.ofString "") =
      ([], Except.error "Azure OpenAI secrets are missing.") ∧
    ((generate_quiz_run (fun _ => FetchOutcome.failure "no network")
        (fun _ _ => Except.ok "quiz") keylessSecrets ["x"] "" "" 5 "").display =
          DisplayMsg.errorMsg "Azure OpenAI secrets are missing." ∧
      (generate_quiz_run (fun _ => FetchOutcome.failure "no network")
        (fun _ _ => Except.ok "quiz") keylessSecrets ["x"] "" "" 5 "").genSteps = []) :=
  have h := c3_config_guard keylessSecrets (Or.inl rfl)
  ⟨Or.inl rfl, h.1 (fun _ _ => Except.ok "quiz") "article" "fokus" 5 "" (LinkText.ofString ""),
    h.2 (fun _ => FetchOutcome.failure "no network") (fun _ _ => Except.ok "quiz")
      ["x"] "" "" 5 "" (by decide)⟩

end StQuiz
namespace StQuiz

theorem generate_quiz_run_links (fetch : String → FetchOutcome)
    (llm : ClientConfig → PromptInputs → Except String String)
    (secrets : Secrets) (sto : List String) (lt pt : String) (q : Nat)
    (lak : String) :
    (generate_quiz_run fetch llm secrets sto lt pt q lak).links = pyLinksOf lt := by
  unfold generate_quiz_run
  by_cases ha : combinedArticleText fetch sto (pyLinksOf lt) = ""
  · simp only [ha, if_pos]
  · simp only [if_neg ha]

theorem generate_quiz_run_scrapeCall (fetch : String → FetchOutcome)
    (llm : ClientConfig → PromptInputs → Except String String)
    (secrets : Secrets) (sto : List String) (lt pt : String) (q : Nat)
    (lak : String) :
    (generate_quiz_run fetch llm secrets sto lt pt q lak).scrapeCall =
      if (pyLinksOf lt).isEmpty then none
      else some (pyLinksOf lt, scrape_links fetch (pyLinksOf lt)) := by
  unfold generate_quiz_run
  by_cases ha : combinedArticleText fetch sto (pyLinksOf lt) = ""
  · simp only [ha, if_pos]
  · simp only [if_neg ha]

theorem generate_quiz_run_createCall_some (fetch : String → FetchOutcome)
    (llm : ClientConfig → PromptInputs → Except String String)
    (secrets : Secrets) (sto : List String) (lt pt : String) (q : Nat)
    (lak : String) (args : PromptInputs)
    (h : (generate_quiz_run fetch llm secrets sto lt pt q lak).createCall =
      some args) :
    args = ⟨combinedArticleText fetch sto (pyLinksOf lt), q,
      (if pt = "" then "allmän förståelse" else pt), lak,
      (if (pyLinksOf lt).isEmpty then LinkText.ofString ""
        else LinkText.ofList (successTexts (scrape_links fetch (pyLinksOf lt))))⟩ := by
  by_cases ha : combinedArticleText fetch sto (pyLinksOf lt) = ""
  · unfold generate_quiz_run at h
    simp only [ha, if_pos] at h
    exact absurd h (by simp)
  · unfold generate_quiz_run at h
    simp only [if_neg ha, Option.some.injEq] at h
    by_cases hl : (pyLinksOf lt).isEmpty
    · simp only [hl, if_pos, if_true] at h ⊢
      exact h.symm
    · simp only [hl, Bool.false_eq_true, if_false] at h ⊢
      exact h.symm

end StQuiz
namespace StQuiz

/-- C9: when the user-supplied focus text is empty, the focus slot of the
assembled prompt inputs is the default value `"allmän förståelse"`
("general understanding"), not the empty string. -/
theorem c9_focus_default (fetch : String → FetchOutcome)
    (llm : ClientConfig → PromptInputs → Except String String)
    (secrets : Secrets) (section_text_output : List String)
    (links_text : String) (questions : Nat) (lakemedel_text : String)
    (args : PromptInputs)
    (h : (generate_quiz_run fetch llm secrets section_text_output links_text
      "" questions lakemedel_text).createCall = some args) :
    args.focus = "allmän förståelse" := by
  rw [generate_quiz_run_createCall_some fetch llm secrets section_text_output
    links_text "" questions lakemedel_text args h]
  rfl

/-- Witness for C9: a concrete run with an empty focus field assembles the
default focus value. -/
theorem c9_focus_default_witness :
    ((generate_quiz_run (fun _ => FetchOutcome.failure "no network")
        (fun _ _ => Except.ok "quiz") ⟨some "k", none, some "e", none⟩
        ["text"] "" "" 5 "").createCall =
      some ⟨"text", 5, "allmän förståelse", "", LinkText.ofString ""⟩) ∧
    (⟨"text", 5, "allmän förståelse", "", LinkText.ofString ""⟩ :
      PromptInputs).focus = "allmän förståelse" :=
  ⟨by decide,
    c9_focus_default (fun _ => FetchOutcome.failure "no network")
      (fun _ _ => Except.ok "quiz") ⟨some "k", none, some "e", none⟩
      ["text"] "" 5 ""
      ⟨"text", 5, "allmän förståelse", "", LinkText.ofString ""⟩ (by decide)⟩

/-- C10: the URLs passed to the scraper are the lines of the URL text area,
each stripped, with blank lines discarded; and the scrape step runs exactly
when some line is non-blank. -/
theorem c10_link_lines (fetch : String → FetchOutcome)
    (llm : ClientConfig → PromptInputs → Except String String)
    (secrets : Secrets) (section_text_output : List String)
    (links_text prompt_text : String) (questions : Nat)
    (lakemedel_text : String) :
    (generate_quiz_run fetch llm secrets section_text_output links_text
      prompt_text questions lakemedel_text).links =
        ((pySplitlinesS links_text).map pyStripS).filter (fun l => !(l == "")) ∧
    ((generate_quiz_run fetch llm secrets section_text_output links_text
      prompt_text questions lakemedel_text).scrapeCall.isSome = true ↔
        ∃ line ∈ pySplitlinesS links_text, pyStripS line ≠ "") ∧
    (∀ ls rs, (generate_quiz_run fetch llm secrets section_text_output
        links_text prompt_text questions lakemedel_text).scrapeCall =
          some (ls, rs) →
      ls = ((pySplitlinesS links_text).map pyStripS).filter (fun l => !(l == "")) ∧
      rs = scrape_links fetch ls) := by
  have hlinks := generate_quiz_run_links fetch llm secrets section_text_output
    links_text prompt_text questions lakemedel_text
  have hsc := generate_quiz_run_scrapeCall fetch llm secrets section_text_output
    links_text prompt_text questions lakemedel_text
  have hne : ((pyLinksOf links_text) ≠ []) ↔
      ∃ line ∈ pySplitlinesS links_text, pyStripS line ≠ "" := by
    unfold pyLinksOf
    rw [Ne, List.filter_eq_nil_iff]
    constructor
    · intro hno
      by_contra hex
      push_neg at hex
      exact hno (by
        intro a ha
        rcases List.mem_map.mp ha with ⟨line, hline, rfl⟩
        simp only [Bool.not_eq_true, Bool.not_eq_eq_eq_not, Bool.not_true,
          beq_eq_false_iff_ne, ne_eq, Decidable.not_not]
        simpa using hex line hline)
    · rintro ⟨line, hline, hnb⟩ hall
      have := hall (pyStripS line) (List.mem_map_of_mem pyStripS hline)
      simp only [Bool.not_eq_true, Bool.not_eq_eq_eq_not, Bool.not_true] at this
      exact hnb (by simpa using this)
  refine ⟨hlinks, ?_, ?_⟩
  · rw [hsc]
    by_cases hl : (pyLinksOf links_text).isEmpty
    · simp only [hl, if_pos, Option.isSome_none]
      constructor
      · intro hfalse
        exact absurd hfalse (by simp)
      · intro hex
        exact absurd (List.isEmpty_iff.mp hl) (hne.mpr hex)
    · simp only [hl, Bool.false_eq_true, if_false, Option.isSome_some, true_iff]
      exact hne.mp (fun hnil => hl (List.isEmpty_iff.mpr hnil))
  · intro ls rs hcall
    rw [hsc] at hcall
    by_cases hl : (pyLinksOf links_text).isEmpty
    · simp only [hl, if_pos] at hcall
      exact absurd hcall (by simp)
    · simp only [hl, Bool.false_eq_true, if_false, Option.some.injEq,
        Prod.mk.injEq] at hcall
      exact ⟨hcall.1.symm, by rw [hcall.2.symm, hcall.1]⟩

/-- Witness for C10 on a concrete URL text area with blank and padded lines. -/
theorem c10_link_lines_witness :
    ((generate_quiz_run (fun _ => FetchOutcome.failure "no network")
        (fun _ _ => Except.ok "quiz") ⟨some "k", none, some "e", none⟩
        [] " http://a \n\n  \nhttp://b" "" 5 "").links =
      ["http://a", "http://b"]) ∧
    ((generate_quiz_run (fun _ => FetchOutcome.failure "no network")
        (fun _ _ => Except.ok "quiz") ⟨some "k", none, some "e", none⟩
        [] " http://a \n\n  \nhttp://b" "" 5 "").scrapeCall.isSome = true) := by
  have h := c10_link_lines (fun _ => FetchOutcome.failure "no network")
    (fun _ _ => Except.ok "quiz") ⟨some "k", none, some "e", none⟩
    [] " http://a \n\n  \nhttp://b" "" 5 ""
  refine ⟨by rw [h.1]; decide, ?_⟩
  exact h.2.1.mpr ⟨" http://a ", by decide, by decide⟩

end StQuiz
namespace StQuiz

/-- C8: when `treatments.csv` is absent, `load_treatments_data` returns the
null result (no exception: the embedding is a total function), and the page
surfaces the data-not-found error inline with no selections and no local
section text instead of crashing or proceeding with local content. -/
theorem c8_data_not_found (fs : FileSystem) (pdAvailable : Bool)
    (selT selS : List String) (h : fs.treatments_exists = false) :
    load_treatments_data fs = none ∧
    page_selection pdAvailable fs selT selS =
      ⟨some "internetmedicin data kunde inte hittas i projektmappen.",
        [], [], []⟩ := by
  have hload : load_treatments_data fs = none := by
    unfold load_treatments_data
    simp [h]
  refine ⟨hload, ?_⟩
  unfold page_selection
  rw [hload]

/-- Witness for C8: a filesystem without the dataset (and with rows the
reader would have produced had it existed, showing they are not used). -/
theorem c8_data_not_found_witness :
    ((⟨false, [⟨some "Astma", some "Behandling", some "text"⟩]⟩ :
        FileSystem).treatments_exists = false) ∧
    (load_treatments_data
        ⟨false, [⟨some "Astma", some "Behandling", some "text"⟩]⟩ = none ∧
      page_selection true
          ⟨false, [⟨some "Astma", some "Behandling", some "text"⟩]⟩
          ["Astma"] ["Astma - Behandling"] =
        ⟨some "internetmedicin data kunde inte hittas i projektmappen.",
          [], [], []⟩) :=
  ⟨rfl, c8_data_not_found
    ⟨false, [⟨some "Astma", some "Behandling", some "text"⟩]⟩ true
    ["Astma"] ["Astma - Behandling"] rfl⟩

end StQuiz
namespace StQuiz

theorem lexLe_total : ∀ a b : List Char, lexLe a b = true ∨ lexLe b a = true
  | [], _ => Or.inl rfl
  | _ :: _, [] => Or.inr rfl
  | a :: as, b :: bs => by
    simp only [lexLe, Bool.or_eq_true, Bool.and_eq_true, decide_eq_true_eq]
    rcases Nat.lt_trichotomy a.toNat b.toNat with h | h | h
    · exact Or.inl (Or.inl h)
    · rcases lexLe_total as bs with ih | ih
      · exact Or.inl (Or.inr ⟨h, ih⟩)
      · exact Or.inr (Or.inr ⟨h.symm, ih⟩)
    · exact Or.inr (Or.inl h)

theorem lexLe_trans : ∀ a b c : List Char,
    lexLe a b = true → lexLe b c = true → lexLe a c = true
  | [], _, _, _, _ => rfl
  | _ :: _, [], _, h1, _ => by simp [lexLe] at h1
  | _ :: _, _ :: _, [], _, h2 => by simp [lexLe] at h2
  | a :: as, b :: bs, c :: cs, h1, h2 => by
    simp only [lexLe, Bool.or_eq_true, Bool.and_eq_true, decide_eq_true_eq]
      at h1 h2 ⊢
    rcases h1 with h1 | ⟨he1, hl1⟩
    · rcases h2 with h2 | ⟨he2, hl2⟩
      · exact Or.inl (Nat.lt_trans h1 h2)
      · exact Or.inl (he2 ▸ h1)
    · rcases h2 with h2 | ⟨he2, hl2⟩
      · exact Or.inl (he1 ▸ h2)
      · exact Or.inr ⟨he1.trans he2, lexLe_trans as bs cs hl1 hl2⟩

instance : IsTotal String (fun a b => strLeB a b = true) :=
  ⟨fun a b => lexLe_total a.data b.data⟩

instance : IsTrans String (fun a b => strLeB a b = true) :=
  ⟨fun a b c h1 h2 => lexLe_trans a.data b.data c.data h1 h2⟩

theorem mem_sortedDedup {a : String} {l : List String} :
    a ∈ sortedDedup l ↔ a ∈ l := by
  unfold sortedDedup
  rw [(List.perm_insertionSort _ l.dedup).mem_iff, List.mem_dedup]

theorem sortedDedup_nodup (l : List String) : (sortedDedup l).Nodup :=
  (List.perm_insertionSort _ l.dedup).nodup_iff.mpr (List.nodup_dedup l)

theorem sortedDedup_sorted (l : List String) :
    List.Sorted (fun a b => strLeB a b = true) (sortedDedup l) :=
  List.sorted_insertionSort _ _

/-- The claim's condition for a row to contribute a section label: title
selected and section title non-empty; the contributed label. -/
def labelOf (selT : List String) (r : Row) : Option String :=
  match r.title, r.section_title with
  | some t, some s =>
    if t ∈ selT ∧ s ≠ "" then some (t ++ " - " ++ s) else none
  | _, _ => none

theorem labelOf_eq_some {selT : List String} {r : Row} {l : String} :
    labelOf selT r = some l ↔
      ∃ t s, r.title = some t ∧ t ∈ selT ∧ r.section_title = some s ∧
        s ≠ "" ∧ l = t ++ " - " ++ s := by
  obtain ⟨ot, os, ox⟩ := r
  cases ot with
  | none => simp [labelOf]
  | some t =>
    cases os with
    | none => simp [labelOf]
    | some s =>
      by_cases h : t ∈ selT ∧ s ≠ ""
      · simp only [labelOf, if_pos h, Option.some.injEq]
        constructor
        · intro he
          exact ⟨t, s, rfl, h.1, rfl, h.2, he.symm⟩
        · rintro ⟨t2, s2, ht2, _, hs2, _, rfl⟩
          cases ht2; cases hs2; rfl
      · simp only [labelOf, if_neg h]
        constructor
        · intro hf
          cases hf
        · rintro ⟨t2, s2, ht2, hmem, hs2, hne, rfl⟩
          cases ht2; cases hs2
          exact absurd ⟨hmem, hne⟩ h

end StQuiz
namespace StQuiz

theorem labels_csv_raw (selT : List String) (h1 : "" ∉ selT) :
    ∀ data : List Row,
      ((filtered_csv data selT).filter
        (fun r => truthy r.title && truthy r.section_title)).map fLabel =
      data.filterMap (labelOf selT)
  | [] => rfl
  | r :: rest => by
    have ih := labels_csv_raw selT h1 rest
    obtain ⟨ot, os, ox⟩ := r
    cases ot with
    | none =>
      simpa [filtered_csv, optMem, List.filter_cons, List.filterMap_cons,
        labelOf] using ih
    | some t =>
      cases os with
      | none =>
        by_cases ht : t ∈ selT
        · simpa [filtered_csv, optMem, ht, truthy, List.filter_cons,
            List.filterMap_cons, labelOf] using ih
        · simpa [filtered_csv, optMem, ht, List.filter_cons,
            List.filterMap_cons, labelOf] using ih
      | some s =>
        by_cases ht : t ∈ selT
        · have htne : t ≠ "" := fun he => h1 (he ▸ ht)
          by_cases hs : s = ""
          · simpa [filtered_csv, optMem, ht, truthy, hs, List.filter_cons,
              List.filterMap_cons, labelOf] using ih
          · simpa [filtered_csv, optMem, ht, truthy, htne, hs,
              List.filter_cons, List.filterMap_cons, labelOf, fLabel, fRepr]
              using ih
        · simpa [filtered_csv, optMem, ht, List.filter_cons,
            List.filterMap_cons, labelOf] using ih

theorem labels_pd_raw (selT : List String) :
    ∀ data : List Row, (∀ r ∈ data, r.section_title ≠ some "") →
      (filtered_pd data selT).map pdLabel = data.filterMap (labelOf selT)
  | [], _ => rfl
  | r :: rest, h2 => by
    have ih := labels_pd_raw selT rest (fun x hx => h2 x (List.mem_cons_of_mem r hx))
    obtain ⟨ot, os, ox⟩ := r
    cases ot with
    | none =>
      simpa [filtered_pd, optMem, List.filter_cons, List.filterMap_cons,
        labelOf] using ih
    | some t =>
      cases os with
      | none =>
        by_cases ht : t ∈ selT
        · simpa [filtered_pd, optMem, ht, List.filter_cons,
            List.filterMap_cons, labelOf] using ih
        · simpa [filtered_pd, optMem, ht, List.filter_cons,
            List.filterMap_cons, labelOf] using ih
      | some s =>
        have hs : s ≠ "" := by
          intro he
          exact h2 ⟨some t, some s, ox⟩ (List.mem_cons_self _ _) (by rw [he])
        by_cases ht : t ∈ selT
        · simpa [filtered_pd, optMem, ht, hs, List.filter_cons,
            List.filterMap_cons, labelOf, pdLabel, pdStr] using ih
        · simpa [filtered_pd, optMem, ht, List.filter_cons,
            List.filterMap_cons, labelOf] using ih

/-- C5: for selected titles (as offered by the UI, hence non-empty, over
csv-clean data), both label-derivation paths produce exactly the distinct
`"{title} - {section_title}"` values of records whose title is selected and
whose section title is non-empty, sorted lexicographically with no
duplicates. -/
theorem c5_section_labels (data : List Row) (selT : List String)
    (h1 : "" ∉ selT) (h2 : ∀ r ∈ data, r.section_title ≠ some "") :
    (∀ l, l ∈ section_labels_csv data selT ↔
      ∃ r ∈ data, ∃ t s, r.title = some t ∧ t ∈ selT ∧
        r.section_title = some s ∧ s ≠ "" ∧ l = t ++ " - " ++ s) ∧
    (∀ l, l ∈ section_labels_pd data selT ↔
      ∃ r ∈ data, ∃ t s, r.title = some t ∧ t ∈ selT ∧
        r.section_title = some s ∧ s ≠ "" ∧ l = t ++ " - " ++ s) ∧
    List.Sorted (fun a b => strLeB a b = true) (section_labels_csv data selT) ∧
    (section_labels_csv data selT).Nodup ∧
    List.Sorted (fun a b => strLeB a b = true) (section_labels_pd data selT) ∧
    (section_labels_pd data selT).Nodup := by
  refine ⟨?_, ?_, sortedDedup_sorted _, sortedDedup_nodup _,
    sortedDedup_sorted _, sortedDedup_nodup _⟩
  · intro l
    unfold section_labels_csv
    rw [mem_sortedDedup, labels_csv_raw selT h1 data, List.mem_filterMap]
    constructor
    · rintro ⟨r, hr, hfn⟩
      exact ⟨r, hr, labelOf_eq_some.mp hfn⟩
    · rintro ⟨r, hr, hex⟩
      exact ⟨r, hr, labelOf_eq_some.mpr hex⟩
  · intro l
    unfold section_labels_pd
    rw [mem_sortedDedup, labels_pd_raw selT data h2, List.mem_filterMap]
    constructor
    · rintro ⟨r, hr, hfn⟩
      exact ⟨r, hr, labelOf_eq_some.mp hfn⟩
    · rintro ⟨r, hr, hex⟩
      exact ⟨r, hr, labelOf_eq_some.mpr hex⟩

end StQuiz
namespace StQuiz

/-- A small concrete dataset: two Astma sections (one without text), an
unselected title and a row without a section title. -/
def labelData : List Row :=
  [⟨some "Astma", some "Behandling", some "Använd inhalationssteroider."⟩,
   ⟨some "Astma", some "Symtom", none⟩,
   ⟨some "KOL", some "Behandling", some "x"⟩,
   ⟨some "Astma", none, some "y"⟩]

/-- Witness for C5 on `labelData` with title `Astma` selected. -/
theorem c5_section_labels_witness :
    ((("" : String) ∉ (["Astma"] : List String)) ∧
      (∀ r ∈ labelData, r.section_title ≠ some "")) ∧
    "Astma - Behandling" ∈ section_labels_csv labelData ["Astma"] ∧
    (section_labels_pd labelData ["Astma"]).Nodup := by
  have h := c5_section_labels labelData ["Astma"] (by decide) (by decide)
  refine ⟨⟨by decide, by decide⟩, ?_, h.2.2.2.2.2⟩
  exact (h.1 "Astma - Behandling").mpr
    ⟨⟨some "Astma", some "Behandling", some "Använd inhalationssteroider."⟩,
      by decide, "Astma", "Behandling", rfl, by decide, rfl, by decide, rfl⟩

end StQuiz
namespace StQuiz

theorem flatMap_congr {α β : Type} {l : List α} {f g : α → List β}
    (h : ∀ a ∈ l, f a = g a) : l.flatMap f = l.flatMap g := by
  induction l with
  | nil => rfl
  | cons a t ih =>
    simp only [List.flatMap_cons]
    rw [h a (List.mem_cons_self a t), ih (fun x hx => h x (List.mem_cons_of_mem a hx))]

/-- Claim C4 as stated: for each selected label in listed order, every
matching record's section text (a missing text standing for the empty
string, as the specification reads missing values) in dataset order. -/
def claimGather (data : List Row) (selT selS : List String) : List String :=
  selS.flatMap (fun label =>
    data.filterMap (fun r =>
      match r.title, r.section_title with
      | some t, some s =>
        if t ∈ selT ∧ t ++ " - " ++ s = label then some (r.section_text.getD "")
        else none
      | _, _ => none))

/-- Claim C4's article text: the gathered texts joined by a blank line and
trimmed. -/
def claimArticle (data : List Row) (selT selS : List String) : String :=
  pyStripS (joinSepS "\n\n" (claimGather data selT selS))

/-- Amended gathering for the csv fallback path, as the amended claim states
it: a record is gathered under a selected label when its title is selected,
its Python-rendered label `f"{title} - {section_title}"` — in which a missing
section title prints as `"None"` — equals the label, and its section text is
present and non-empty. -/
def specGatherCsv (data : List Row) (selT selS : List String) : List String :=
  selS.flatMap (fun label =>
    data.filterMap (fun r =>
      match r.title, r.section_text with
      | some t, some x =>
        if t ∈ selT ∧ t ++ " - " ++ fRepr r.section_title = label ∧ x ≠ ""
        then some x else none
      | _, _ => none))

/-- Amended gathering for the pandas path: only present section texts are
collected (empty strings are kept). -/
def specGatherPd (data : List Row) (selT selS : List String) : List String :=
  selS.flatMap (fun label =>
    data.filterMap (fun r =>
      match r.title, r.section_title, r.section_text with
      | some t, some s, some x =>
        if t ∈ selT ∧ t ++ " - " ++ s = label then some x else none
      | _, _, _ => none))

theorem gather_csv_inner (selT : List String) (label : String) :
    ∀ data : List Row,
      ((filtered_csv data selT).filter
        (fun r => truthy r.section_text && (fLabel r == label))).map
        (fun r => fRepr r.section_text) =
      data.filterMap (fun r =>
        match r.title, r.section_text with
        | some t, some x =>
          if t ∈ selT ∧ t ++ " - " ++ fRepr r.section_title = label ∧ x ≠ ""
          then some x else none
        | _, _ => none)
  | [] => rfl
  | r :: rest => by
    have ih := gather_csv_inner selT label rest
    obtain ⟨ot, os, ox⟩ := r
    cases ot with
    | none =>
      cases ox with
      | none =>
        simpa [filtered_csv, optMem, List.filter_cons, List.filterMap_cons]
          using ih
      | some x =>
        simpa [filtered_csv, optMem, List.filter_cons, List.filterMap_cons]
          using ih
    | some t =>
      by_cases ht : t ∈ selT
      · cases ox with
        | none =>
          simpa [filtered_csv, optMem, ht, truthy, List.filter_cons,
            List.filterMap_cons] using ih
        | some x =>
          by_cases hx : x = ""
          · simpa [filtered_csv, optMem, ht, truthy, hx, List.filter_cons,
              List.filterMap_cons] using ih
          · cases os with
            | none =>
              by_cases hl : t ++ " - " ++ "None" = label
              · simpa [filtered_csv, optMem, ht, truthy, hx, fLabel, fRepr,
                  hl, List.filter_cons, List.filterMap_cons] using ih
              · simpa [filtered_csv, optMem, ht, truthy, hx, fLabel, fRepr,
                  hl, List.filter_cons, List.filterMap_cons] using ih
            | some s =>
              by_cases hl : t ++ " - " ++ s = label
              · simpa [filtered_csv, optMem, ht, truthy, hx, fLabel, fRepr,
                  hl, List.filter_cons, List.filterMap_cons] using ih
              · simpa [filtered_csv, optMem, ht, truthy, hx, fLabel, fRepr,
                  hl, List.filter_cons, List.filterMap_cons] using ih
      · cases ox with
        | none =>
          simpa [filtered_csv, optMem, ht, List.filter_cons,
            List.filterMap_cons] using ih
        | some x =>
          simpa [filtered_csv, optMem, ht, List.filter_cons,
            List.filterMap_cons] using ih

theorem gather_pd_inner (selT selS : List String) (label : String)
    (hlab : label ∈ selS) :
    ∀ data : List Row,
      (((filtered_pd data selT).filter
        (fun r => pdLabel r ∈ selS)).filter
        (fun r => pdLabel r == label)).filterMap (fun r => r.section_text) =
      data.filterMap (fun r =>
        match r.title, r.section_title, r.section_text with
        | some t, some s, some x =>
          if t ∈ selT ∧ t ++ " - " ++ s = label then some x else none
        | _, _, _ => none)
  | [] => rfl
  | r :: rest => by
    have ih := gather_pd_inner selT selS label hlab rest
    obtain ⟨ot, os, ox⟩ := r
    cases ot with
    | none =>
      simpa [filtered_pd, optMem, List.filter_cons, List.filterMap_cons]
        using ih
    | some t =>
      cases os with
      | none =>
        by_cases ht : t ∈ selT
        · simpa [filtered_pd, optMem, ht, List.filter_cons,
            List.filterMap_cons] using ih
        · simpa [filtered_pd, optMem, ht, List.filter_cons,
            List.filterMap_cons] using ih
      | some s =>
        by_cases ht : t ∈ selT
        · by_cases hl : t ++ " - " ++ s = label
          · cases ox with
            | none =>
              simpa [filtered_pd, optMem, ht, hlab, hl, pdLabel, pdStr,
                List.filter_cons, List.filterMap_cons] using ih
            | some x =>
              simpa [filtered_pd, optMem, ht, hlab, hl, pdLabel, pdStr,
                List.filter_cons, List.filterMap_cons] using ih
          · by_cases hsel : t ++ " - " ++ s ∈ selS
            · cases ox with
              | none =>
                simpa [filtered_pd, optMem, ht, hsel, hl, pdLabel, pdStr,
                  List.filter_cons, List.filterMap_cons] using ih
              | some x =>
                simpa [filtered_pd, optMem, ht, hsel, hl, pdLabel, pdStr,
                  List.filter_cons, List.filterMap_cons] using ih
            · cases ox with
              | none =>
                simpa [filtered_pd, optMem, ht, hsel, hl, pdLabel, pdStr,
                  List.filter_cons, List.filterMap_cons] using ih
              | some x =>
                simpa [filtered_pd, optMem, ht, hsel, hl, pdLabel, pdStr,
                  List.filter_cons, List.filterMap_cons] using ih
        · cases ox with
          | none =>
            simpa [filtered_pd, optMem, ht, List.filter_cons,
              List.filterMap_cons] using ih
          | some x =>
            simpa [filtered_pd, optMem, ht, List.filter_cons,
              List.filterMap_cons] using ih

end StQuiz
namespace StQuiz

/-- C4 (amended): for each selected label in listed order, the pandas path
gathers every matching record's present section text in dataset order, and
the csv fallback path gathers, in dataset order, the present non-empty
section text of every record whose Python-rendered label (a missing section
title printing as `"None"`) equals the selected label; the article text is
the blank-line join of the gathered texts, trimmed.  No hypotheses: the
equalities hold for every dataset and every selection. -/
theorem c4_gather_amended (data : List Row) (selT selS : List String) :
    section_text_output_csv data selT selS = specGatherCsv data selT selS ∧
    section_text_output_pd data selT selS = specGatherPd data selT selS ∧
    article_text_selection (section_text_output_csv data selT selS) =
      pyStripS (joinSepS "\n\n" (specGatherCsv data selT selS)) ∧
    article_text_selection (section_text_output_pd data selT selS) =
      pyStripS (joinSepS "\n\n" (specGatherPd data selT selS)) := by
  have hcsv : section_text_output_csv data selT selS =
      specGatherCsv data selT selS := by
    simp only [section_text_output_csv, specGatherCsv]
    exact flatMap_congr (fun label _ => gather_csv_inner selT label data)
  have hpd : section_text_output_pd data selT selS =
      specGatherPd data selT selS := by
    simp only [section_text_output_pd, specGatherPd]
    exact flatMap_congr (fun label hlab => gather_pd_inner selT selS label hlab data)
  exact ⟨hcsv, hpd, by rw [hcsv]; rfl, by rw [hpd]; rfl⟩

/-- A dataset on which claim C4 fails for the csv fallback path: the second
matching record has an empty section text. -/
def cxData : List Row :=
  [⟨some "A", some "B", some "x"⟩,
   ⟨some "A", some "B", some ""⟩,
   ⟨some "A", some "B", some "y"⟩]

/-- A dataset on which claim C4 fails for the csv fallback path in a second
way: the derived label `t - None` (from the literal section title `"None"`)
also matches the record whose section title is missing, because Python's
f-string renders `None` as `"None"`. -/
def cxDataNone : List Row :=
  [⟨some "t", some "None", some "x"⟩,
   ⟨some "t", none, some "y"⟩]

/-- Counterexample to C4 as stated, in both ways the code departs from it.
On `cxData`, with title `A` and the derived label `A - B` selected, the
claim's article text keeps the empty matching section text (two consecutive
blank-line separators) but the csv fallback path drops it.  On `cxDataNone`,
with title `t` and the derived label `t - None` selected, the csv fallback
path also gathers the text of the record with a missing section title
(rendered label `t - None`), which the claim's `"{title} - {section_title}"`
matching excludes. -/
theorem c4_claim_counterexample :
    (section_labels_csv cxData ["A"] = ["A - B"] ∧
      claimGather cxData ["A"] ["A - B"] = ["x", "", "y"] ∧
      claimArticle cxData ["A"] ["A - B"] = "x\n\n\n\ny" ∧
      section_text_output_csv cxData ["A"] ["A - B"] = ["x", "y"] ∧
      article_text_selection (section_text_output_csv cxData ["A"] ["A - B"]) =
        "x\n\ny" ∧
      article_text_selection (section_text_output_csv cxData ["A"] ["A - B"]) ≠
        claimArticle cxData ["A"] ["A - B"]) ∧
    (section_labels_csv cxDataNone ["t"] = ["t - None"] ∧
      claimGather cxDataNone ["t"] ["t - None"] = ["x"] ∧
      claimArticle cxDataNone ["t"] ["t - None"] = "x" ∧
      section_text_output_csv cxDataNone ["t"] ["t - None"] = ["x", "y"] ∧
      article_text_selection
          (section_text_output_csv cxDataNone ["t"] ["t - None"]) = "x\n\ny" ∧
      article_text_selection
          (section_text_output_csv cxDataNone ["t"] ["t - None"]) ≠
        claimArticle cxDataNone ["t"] ["t - None"]) :=
  ⟨⟨by decide, by decide, by decide, by decide, by decide, by decide⟩,
    ⟨by decide, by decide, by decide, by decide, by decide, by decide⟩⟩

end StQuiz
namespace StQuiz

theorem collapseRun_true_eq : ∀ s : List Char,
    collapseRun true s = collapseRun false (s.dropWhile isWs)
  | [] => rfl
  | c :: cs => by
    by_cases hw : isWs c
    · simp only [collapseRun, hw, if_true, List.dropWhile_cons, if_pos]
      exact collapseRun_true_eq cs
    · simp only [collapseRun, hw, Bool.false_eq_true, if_false,
        List.dropWhile_cons, if_neg]

theorem collapseRun_allWs {s : List Char} (h : ∀ c ∈ s, isWs c = true) :
    collapseRun true s = [] := by
  rw [collapseRun_true_eq, List.dropWhile_eq_nil_iff.mpr h]
  rfl

theorem wordsAux_ne_nil : ∀ (s cur : List Char), cur ≠ [] → wordsAux cur s ≠ []
  | [], cur, h => by
    simp only [wordsAux, List.isEmpty_iff]
    intro hfalse
    split at hfalse
    · next he => exact h he
    · exact List.cons_ne_nil _ _ hfalse
  | c :: cs, cur, h => by
    have hcur : ¬cur.isEmpty = true := by
      simpa [List.isEmpty_iff] using h
    simp only [wordsAux]
    by_cases hw : isWs c
    · rw [if_pos hw, if_neg hcur]
      exact List.cons_ne_nil _ _
    · rw [if_neg hw]
      exact wordsAux_ne_nil cs (c :: cur) (List.cons_ne_nil c cur)

theorem wordsAux_nil_iff : ∀ s : List Char,
    wordsAux [] s = [] ↔ ∀ c ∈ s, isWs c = true
  | [] => by simp [wordsAux]
  | c :: cs => by
    by_cases hw : isWs c
    · simp only [wordsAux, hw, if_true, List.isEmpty_nil, if_pos]
      rw [wordsAux_nil_iff cs]
      constructor
      · intro h d hd
        rcases List.mem_cons.mp hd with rfl | hd2
        · exact hw
        · exact h d hd2
      · intro h d hd
        exact h d (List.mem_cons_of_mem c hd)
    · simp only [wordsAux, hw, Bool.false_eq_true, if_false]
      constructor
      · intro hfalse
        exact absurd hfalse (wordsAux_ne_nil cs [c] (List.cons_ne_nil c []))
      · intro h
        exact absurd (h c (List.mem_cons_self c cs)) (by simpa using hw)

theorem rdropWhile_cons_neg {p : Char → Bool} {c : Char} (t : List Char)
    (h : ¬p c = true) :
    List.rdropWhile p (c :: t) = c :: List.rdropWhile p t := by
  unfold List.rdropWhile
  rw [List.reverse_cons, List.dropWhile_append]
  by_cases he : (t.reverse.dropWhile p).isEmpty
  · simp only [he, if_true, List.dropWhile_cons, h, Bool.false_eq_true,
      if_neg, List.dropWhile_nil]
    rw [List.isEmpty_iff.mp he]
    rfl
  · simp only [he, Bool.false_eq_true, if_false, List.reverse_append]
    rfl

theorem rdropWhile_cons_ne {p : Char → Bool} {c : Char} {t : List Char}
    (h : List.rdropWhile p t ≠ []) :
    List.rdropWhile p (c :: t) = c :: List.rdropWhile p t := by
  unfold List.rdropWhile at h ⊢
  rw [List.reverse_cons, List.dropWhile_append]
  have hne : ¬(t.reverse.dropWhile p).isEmpty := by
    intro hfalse
    exact h (by rw [List.isEmpty_iff.mp hfalse]; rfl)
  simp only [hne, Bool.false_eq_true, if_false, List.reverse_append]
  rfl

theorem collapseRun_cons_not {c : Char} (t : List Char) (h : ¬isWs c = true) :
    collapseRun false (c :: t) = c :: collapseRun false t := by
  simp only [collapseRun, h, Bool.false_eq_true, if_false]

theorem collapse_dropWhile : ∀ s : List Char,
    (collapseRun false s).dropWhile isWs =
      (collapseRun false (s.dropWhile isWs)).dropWhile isWs
  | [] => rfl
  | c :: cs => by
    by_cases hw : isWs c
    · have h1 : collapseRun false (c :: cs) = ' ' :: collapseRun true cs := by
        simp [collapseRun, hw]
      rw [h1,
        show List.dropWhile isWs (' ' :: collapseRun true cs) =
          List.dropWhile isWs (collapseRun true cs) from by
            rw [List.dropWhile_cons, if_pos (show isWs ' ' = true from rfl)],
        collapseRun_true_eq cs,
        show List.dropWhile isWs (c :: cs) = List.dropWhile isWs cs from by
          rw [List.dropWhile_cons]; simp [hw]]
    · rw [show List.dropWhile isWs (c :: cs) = c :: cs from by
        rw [List.dropWhile_cons]; simp [hw]]

theorem collapseRun_all_imp : ∀ (v : List Char) (b : Bool),
    (∀ c ∈ collapseRun b v, isWs c = true) → ∀ c ∈ v, isWs c = true
  | [], _, _ => by simp
  | a :: t, b, h => by
    by_cases hw : isWs a
    · have hsub : ∀ c ∈ collapseRun true t, isWs c = true := by
        intro c hc
        apply h
        cases b
        · simpa [collapseRun, hw] using Or.inr hc
        · simpa [collapseRun, hw] using hc
      have ht := collapseRun_all_imp t true hsub
      intro c hc
      rcases List.mem_cons.mp hc with rfl | hc2
      · exact hw
      · exact ht c hc2
    · exfalso
      apply hw
      apply h
      cases b <;> simp [collapseRun, hw]

theorem rdropWhile_collapse_ne {v : List Char}
    (h : ¬∀ c ∈ v, isWs c = true) :
    List.rdropWhile isWs (collapseRun false v) ≠ [] := by
  intro hfalse
  exact h (collapseRun_all_imp v false (List.rdropWhile_eq_nil_iff.mp hfalse))

theorem joinSep_cons_of_ne {sep x : List Char} {w : List (List Char)}
    (h : w ≠ []) : joinSep sep (x :: w) = x ++ sep ++ joinSep sep w := by
  cases w with
  | nil => exact absurd rfl h
  | cons y ys => rfl

end StQuiz
namespace StQuiz

theorem dropWhileHeadFalse {p : Char → Bool} {l t : List Char} {d : Char}
    (h : l.dropWhile p = d :: t) : p d = false := by
  have h2 := List.head?_dropWhile_not p l
  rw [h] at h2
  simpa using h2

theorem wordsCollapse : ∀ (n : Nat) (s : List Char), s.length ≤ n →
    (joinSep [' '] (wordsAux [] s) =
      pyStrip (collapseRun false s)) ∧
    (∀ cur : List Char, cur ≠ [] →
      joinSep [' '] (wordsAux cur s) =
        cur.reverse ++ List.rdropWhile isWs (collapseRun false s)) := by
  intro n
  induction n with
  | zero =>
    intro s hs
    have hnil : s = [] := List.length_eq_zero.mp (Nat.le_zero.mp hs)
    subst hnil
    refine ⟨rfl, ?_⟩
    intro cur hcur
    have hne : ¬cur.isEmpty = true := by simpa [List.isEmpty_iff] using hcur
    rw [show wordsAux cur [] = [cur.reverse] from by
      simp [wordsAux, hne]]
    simp [joinSep, collapseRun, List.rdropWhile_nil]
  | succ n ih =>
    intro s hs
    cases s with
    | nil =>
      refine ⟨rfl, ?_⟩
      intro cur hcur
      have hne : ¬cur.isEmpty = true := by simpa [List.isEmpty_iff] using hcur
      rw [show wordsAux cur [] = [cur.reverse] from by
        simp [wordsAux, hne]]
      simp [joinSep, collapseRun, List.rdropWhile_nil]
    | cons c cs =>
      have hcs : cs.length ≤ n := by
        simp only [List.length_cons] at hs
        omega
      have IH := ih cs hcs
      by_cases hw : isWs c
      · have hwds : wordsAux [] (c :: cs) = wordsAux [] cs := by
          simp [wordsAux, hw]
        have h1 : collapseRun false (c :: cs) = ' ' :: collapseRun true cs := by
          simp [collapseRun, hw]
        have e1 : pyStrip (collapseRun false (c :: cs)) =
            pyStrip (collapseRun false cs) := by
          unfold pyStrip
          rw [collapse_dropWhile (c :: cs), collapse_dropWhile cs,
            show List.dropWhile isWs (c :: cs) = List.dropWhile isWs cs from by
              rw [List.dropWhile_cons, if_pos hw]]
        refine ⟨by rw [hwds, IH.1, e1], ?_⟩
        intro cur hcur
        have hne : ¬cur.isEmpty = true := by simpa [List.isEmpty_iff] using hcur
        have hwds2 : wordsAux cur (c :: cs) = cur.reverse :: wordsAux [] cs := by
          simp [wordsAux, hw, hne]
        rw [hwds2, h1]
        by_cases hall : ∀ d ∈ cs, isWs d = true
        · rw [(wordsAux_nil_iff cs).mpr hall, collapseRun_allWs hall,
            show List.rdropWhile isWs [' '] = [] from by decide]
          simp [joinSep]
        · have hwne : wordsAux [] cs ≠ [] :=
            fun he => hall ((wordsAux_nil_iff cs).mp he)
          have hdne : List.dropWhile isWs cs ≠ [] := by
            intro he
            exact hall (List.dropWhile_eq_nil_iff.mp he)
          have hrne : List.rdropWhile isWs (collapseRun true cs) ≠ [] := by
            rw [collapseRun_true_eq]
            apply rdropWhile_collapse_ne
            intro hall2
            cases hd : List.dropWhile isWs cs with
            | nil => exact hdne hd
            | cons d ds =>
              have hdf := dropWhileHeadFalse hd
              have hdt := hall2 d (by rw [hd]; exact List.mem_cons_self d ds)
              simp [hdt] at hdf
          have hkey : pyStrip (collapseRun false cs) =
              List.rdropWhile isWs (collapseRun true cs) := by
            unfold pyStrip
            rw [collapse_dropWhile cs, collapseRun_true_eq]
            congr 1
            cases hd : List.dropWhile isWs cs with
            | nil => exact absurd hd hdne
            | cons d ds =>
              have hdf := dropWhileHeadFalse hd
              rw [collapseRun_cons_not ds (by simp [hdf]),
                List.dropWhile_cons, if_neg (by simp [hdf])]
          rw [joinSep_cons_of_ne hwne, IH.1, hkey,
            rdropWhile_cons_ne hrne]
          simp [List.append_assoc]
      · have h2 : collapseRun false (c :: cs) = c :: collapseRun false cs :=
          collapseRun_cons_not cs hw
        have hGword : wordsAux [] (c :: cs) = wordsAux [c] cs := by
          simp [wordsAux, hw]
        have hRdrop : List.rdropWhile isWs (c :: collapseRun false cs) =
            c :: List.rdropWhile isWs (collapseRun false cs) :=
          rdropWhile_cons_neg _ hw
        refine ⟨?_, ?_⟩
        · rw [hGword, IH.2 [c] (List.cons_ne_nil c []), h2]
          unfold pyStrip
          rw [show List.dropWhile isWs (c :: collapseRun false cs) =
              c :: collapseRun false cs from by
            rw [List.dropWhile_cons, if_neg hw], hRdrop]
          rfl
        · intro cur hcur
          have hward : wordsAux cur (c :: cs) = wordsAux (c :: cur) cs := by
            simp [wordsAux, hw]
          rw [hward, IH.2 (c :: cur) (List.cons_ne_nil c cur), h2, hRdrop]
          simp [List.reverse_cons, List.append_assoc]

theorem pyCollapse_eq_strip_collapse (s : List Char) :
    pyCollapse s = pyStrip (collapseWs s) :=
  (wordsCollapse s.length s (Nat.le_refl _)).1

theorem pyCollapseS_eq_strip_collapse (s : String) :
    pyCollapseS s = pyStripS (String.mk (collapseWs s.data)) := by
  unfold pyCollapseS pyStripS
  rw [show pyCollapse s.data = pyStrip (collapseWs s.data) from
    pyCollapse_eq_strip_collapse s.data]

end StQuiz
namespace StQuiz

/-- The visible text of a fetched page as the specification words it:
extract the text of the HTML tree with script/style/noscript content
removed, collapse every whitespace run to a single space, then trim. -/
def spec_visible_text (h : Html) : String :=
  pyStripS (String.mk (collapseWs (get_text h).data))

/-- C7: for every URL whose GET succeeds, the fetch result is tagged with
that url and its text is exactly the specification's pipeline — visible text
of the decomposed HTML with whitespace runs collapsed to single spaces and
ends trimmed (the code's `" ".join(text.split())` is proved equal to
collapse-then-trim). -/
theorem c7_success_text (fetch : String → FetchOutcome) (links : List String)
    (i : Nat) (url : String) (body : Html) (hurl : links[i]? = some url)
    (hfetch : fetch url = FetchOutcome.success body) :
    (scrape_links fetch links)[i]? =
      some (ScrapeResult.ok url (spec_visible_text body)) := by
  have hclean : cleanPageText body = spec_visible_text body := by
    unfold cleanPageText spec_visible_text
    exact pyCollapseS_eq_strip_collapse (get_text body)
  simp [scrape_links, List.getElem?_map, hurl, hfetch, hclean]

/-- A fetch oracle that always serves the specification's Hello page. -/
def helloFetch : String → FetchOutcome :=
  fun _ => FetchOutcome.success helloBody

/-- Witness for C7 on the specification's example: the Hello page with an
embedded script yields exactly the text `"Hello"`. -/
theorem c7_success_text_witness :
    ((["http://b.test"] : List String)[0]? = some "http://b.test" ∧
      helloFetch "http://b.test" = FetchOutcome.success helloBody) ∧
    (scrape_links helloFetch ["http://b.test"])[0]? =
      some (ScrapeResult.ok "http://b.test" (spec_visible_text helloBody)) ∧
    spec_visible_text helloBody = "Hello" :=
  ⟨⟨rfl, rfl⟩,
    c7_success_text helloFetch ["http://b.test"] 0 "http://b.test" helloBody
      rfl rfl,
    by decide⟩

end StQuiz
namespace StQuiz

theorem mem_joinSep_sub (sep : List Char) :
    ∀ (parts : List (List Char)) (p : List Char), p ∈ parts →
      p <:+: joinSep sep parts
  | [], p, h => absurd h (List.not_mem_nil p)
  | [x], p, h => by
    rcases List.mem_singleton.mp h with rfl
    exact List.infix_rfl
  | x :: y :: xs, p, h => by
    rcases List.mem_cons.mp h with rfl | h2
    · exact ⟨[], sep ++ joinSep sep (y :: xs), by simp [List.append_assoc, joinSep]⟩
    · obtain ⟨a, b, hab⟩ := mem_joinSep_sub sep (y :: xs) p h2
      exact ⟨x ++ sep ++ a, b, by
        rw [show joinSep sep (x :: y :: xs) = x ++ sep ++ joinSep sep (y :: xs)
          from rfl, ← hab]
        simp [List.append_assoc]⟩

theorem dropWhile_append_sub (u t v : List Char) (hne : t ≠ [])
    (h1 : ∀ c, t.head? = some c → isWs c = false) :
    ∃ w, List.dropWhile isWs (u ++ (t ++ v)) = w ++ (t ++ v) := by
  cases t with
  | nil => exact absurd rfl hne
  | cons d t2 =>
    have hd : isWs d = false := h1 d rfl
    rw [List.dropWhile_append]
    by_cases he : (u.dropWhile isWs).isEmpty
    · refine ⟨[], ?_⟩
      rw [if_pos he]
      rw [show (d :: t2) ++ v = d :: (t2 ++ v) from rfl, List.dropWhile_cons,
        if_neg (by simp [hd])]
      simp
    · exact ⟨u.dropWhile isWs, by rw [if_neg he]⟩

theorem infix_pyStrip {t s : List Char}
    (h1 : ∀ c, t.head? = some c → isWs c = false)
    (h2 : ∀ c, t.getLast? = some c → isWs c = false)
    (hinf : t <:+: s) : t <:+: pyStrip s := by
  rcases eq_or_ne t [] with rfl | hne
  · exact List.nil_infix
  · obtain ⟨u, v, huv⟩ := hinf
    unfold pyStrip
    obtain ⟨w, hw⟩ := dropWhile_append_sub u t v hne h1
    have hs2 : List.dropWhile isWs s = w ++ (t ++ v) := by
      rw [← huv, List.append_assoc, hw]
    rw [hs2]
    unfold List.rdropWhile
    have hrev : (w ++ (t ++ v)).reverse = v.reverse ++ (t.reverse ++ w.reverse) := by
      simp [List.reverse_append, List.append_assoc]
    rw [hrev]
    have hne2 : t.reverse ≠ [] := by simpa using hne
    have h1r : ∀ c, t.reverse.head? = some c → isWs c = false := by
      intro c hc
      rw [List.head?_reverse] at hc
      exact h2 c hc
    obtain ⟨w2, hw2⟩ := dropWhile_append_sub v.reverse t.reverse w.reverse hne2 h1r
    rw [hw2]
    refine ⟨w, w2.reverse, ?_⟩
    simp [List.reverse_append, List.reverse_reverse, List.append_assoc]

theorem pyStrip_getLast_not (s : List Char) :
    ∀ c, (pyStrip s).getLast? = some c → isWs c = false := by
  intro c hc
  have hne : pyStrip s ≠ [] := by
    intro h0
    rw [h0] at hc
    cases hc
  have hlast := List.rdropWhile_last_not isWs (s.dropWhile isWs)
    (by exact hne)
  have hgl : (pyStrip s).getLast? = some ((pyStrip s).getLast hne) :=
    List.getLast?_eq_getLast _ hne
  rw [hc] at hgl
  have : c = (pyStrip s).getLast hne := by
    injection hgl
  rw [this]
  exact Bool.not_eq_true _ ▸ (by simpa using hlast)

theorem pyStrip_head_not (s : List Char) :
    ∀ c, (pyStrip s).head? = some c → isWs c = false := by
  intro c hc
  obtain ⟨k, hk⟩ := List.rdropWhile_prefix isWs (l := s.dropWhile isWs)
  cases hps : pyStrip s with
  | nil =>
    rw [hps] at hc
    cases hc
  | cons d r =>
    have hcd : c = d := by
      rw [hps] at hc
      simp only [List.head?_cons, Option.some.injEq] at hc
      exact hc.symm
    rw [show pyStrip s = List.rdropWhile isWs (List.dropWhile isWs s)
      from rfl] at hps
    rw [hps] at hk
    have hdw : List.dropWhile isWs s = d :: (r ++ k) := by
      rw [← hk]
      simp
    rw [hcd]
    exact dropWhileHeadFalse hdw

theorem pyCollapse_head_not (s : List Char) :
    ∀ c, (pyCollapse s).head? = some c → isWs c = false := by
  rw [pyCollapse_eq_strip_collapse]
  exact pyStrip_head_not _

theorem pyCollapse_getLast_not (s : List Char) :
    ∀ c, (pyCollapse s).getLast? = some c → isWs c = false := by
  rw [pyCollapse_eq_strip_collapse]
  exact pyStrip_getLast_not _

theorem successTexts_scrape_mem {fetch : String → FetchOutcome}
    {links : List String} {t : String}
    (ht : t ∈ successTexts (scrape_links fetch links)) :
    ∃ url body, url ∈ links ∧ fetch url = FetchOutcome.success body ∧
      t = cleanPageText body := by
  unfold successTexts at ht
  rcases List.mem_filterMap.mp ht with ⟨r, hr, hfn⟩
  unfold scrape_links at hr
  rcases List.mem_map.mp hr with ⟨link, hlink, hfr⟩
  cases hfetch : fetch link with
  | success body =>
    rw [hfetch] at hfr
    rw [← hfr] at hfn
    simp only [Option.some.injEq] at hfn
    exact ⟨link, body, hlink, hfetch, hfn.symm⟩
  | failure e =>
    rw [hfetch] at hfr
    rw [← hfr] at hfn
    cases hfn

end StQuiz
namespace StQuiz

/-- C6: in every run whose quiz request is actually assembled, each
successfully fetched page text is passed to the completion request twice:
it is an element of the `link_text` slot's list and a substring of the
`article` slot. -/
theorem c6_fetched_text_twice (fetch : String → FetchOutcome)
    (llm : ClientConfig → PromptInputs → Except String String)
    (secrets : Secrets) (sto : List String) (lt pt : String) (q : Nat)
    (lak : String) (args : PromptInputs) (ls : List String)
    (rs : List ScrapeResult) (t : String)
    (hcall : (generate_quiz_run fetch llm secrets sto lt pt q lak).createCall =
      some args)
    (hscrape : (generate_quiz_run fetch llm secrets sto lt pt q lak).scrapeCall =
      some (ls, rs))
    (ht : t ∈ successTexts rs) :
    t ∈ args.link_text.texts ∧ t.data <:+: args.article.data := by
  have hargs := generate_quiz_run_createCall_some fetch llm secrets sto lt pt
    q lak args hcall
  have hsc := generate_quiz_run_scrapeCall fetch llm secrets sto lt pt q lak
  rw [hscrape] at hsc
  by_cases hl : (pyLinksOf lt).isEmpty
  · rw [if_pos hl] at hsc
    cases hsc
  · rw [if_neg hl] at hsc
    have hpr := Option.some.inj hsc
    have hls : ls = pyLinksOf lt := congrArg Prod.fst hpr
    have hrs : rs = scrape_links fetch (pyLinksOf lt) := congrArg Prod.snd hpr
    subst hls
    subst hrs
    constructor
    · rw [hargs]
      show t ∈ LinkText.texts (if (pyLinksOf lt).isEmpty = true
        then LinkText.ofString ""
        else LinkText.ofList (successTexts (scrape_links fetch (pyLinksOf lt))))
      rw [if_neg hl]
      exact ht
    · rw [hargs]
      show t.data <:+: (combinedArticleText fetch sto (pyLinksOf lt)).data
      unfold combinedArticleText
      rw [if_neg hl]
      obtain ⟨url, body, hu2, hf2, htex⟩ := successTexts_scrape_mem ht
      have hhead : ∀ c, t.data.head? = some c → isWs c = false := by
        rw [htex]
        exact pyCollapse_head_not (get_text body).data
      have hlast : ∀ c, t.data.getLast? = some c → isWs c = false := by
        rw [htex]
        exact pyCollapse_getLast_not (get_text body).data
      have hmem : t.data ∈ List.map String.data
          (article_text_selection sto ::
            successTexts (scrape_links fetch (pyLinksOf lt))) :=
        List.mem_map_of_mem String.data (List.mem_cons_of_mem _ ht)
      exact infix_pyStrip hhead hlast
        (mem_joinSep_sub ("\n\n".data) _ t.data hmem)

/-- Witness for C6: one successful fetch of the Hello page; its text appears
in the assembled request both inside `link_text` and inside `article`. -/
theorem c6_fetched_text_twice_witness :
    ((generate_quiz_run helloFetch (fun _ _ => Except.ok "quiz")
        ⟨some "k", none, some "e", none⟩ [] "http://b.test" "" 5 "").createCall =
          some ⟨"Hello", 5, "allmän förståelse", "", LinkText.ofList ["Hello"]⟩ ∧
      (generate_quiz_run helloFetch (fun _ _ => Except.ok "quiz")
        ⟨some "k", none, some "e", none⟩ [] "http://b.test" "" 5 "").scrapeCall =
          some (["http://b.test"], [ScrapeResult.ok "http://b.test" "Hello"]) ∧
      "Hello" ∈ successTexts [ScrapeResult.ok "http://b.test" "Hello"]) ∧
    ("Hello" ∈ (LinkText.ofList ["Hello"]).texts ∧
      "Hello".data <:+: "Hello".data) :=
  ⟨⟨by decide, by decide, by decide⟩,
    c6_fetched_text_twice helloFetch (fun _ _ => Except.ok "quiz")
      ⟨some "k", none, some "e", none⟩ [] "http://b.test" "" 5 ""
      ⟨"Hello", 5, "allmän förståelse", "", LinkText.ofList ["Hello"]⟩
      ["http://b.test"] [ScrapeResult.ok "http://b.test" "Hello"] "Hello"
      (by decide) (by decide) (by decide)⟩

end StQuiz
